import Mathlib

set_option linter.unusedVariables false
set_option linter.unnecessarySimpa false

/-!
Verification development for the quicktube repository.

The development shallowly embeds the URL validator and parser from
src/lib/utils.ts, the backend client from src/services/youtubeService.ts
(and the older fetch based draft of the same client), and the download
workflow controller from src/components/YouTubeDownloader.tsx
(the second component version in that file, whose submit handler is
handleFetchVideo).

Modelling conventions:
* JavaScript strings are Lean String values; the regex based scanning of
  getVideoId is embedded as an explicit left to right scan over the
  character list.
* JavaScript truthiness on optional strings and numbers is modelled
  explicitly (absent values and the empty string or zero are falsy).
* Promise rejection and thrown exceptions are modelled with Except; a
  try catch block is the explicit handler of the Except value.
* The floating point pipeline of formatFileSize (Math.log, toFixed,
  parseFloat) is modelled with exact arithmetic: the base 1024 logarithm
  is Nat.log, rounding to two decimals is half up rounding to hundredths,
  and parseFloat stripping of trailing zeros is an explicit renderer.
-/

namespace Utils

/-- Character class of the id capture groups in getVideoId,
from the regex class a to z, A to Z, 0 to 9, dash, underscore. -/
def isIdChar (c : Char) : Bool :=
  c.isAlpha || c.isDigit || c == '-' || c == '_'

/-- Literal part of the short link regex in getVideoId. -/
def shortMarker : List Char := "youtu.be/".data

/-- Literal part of the standard watch regex in getVideoId. -/
def watchMarker : List Char := "youtube.com/watch?v=".data

/-- Literal part of the legacy v path regex in getVideoId. -/
def vMarker : List Char := "youtube.com/v/".data

/-- Literal part of the embed regex in getVideoId. -/
def embedMarker : List Char := "youtube.com/embed/".data

/-- Embedding of the JavaScript regex match for a pattern of the form
literal marker followed by a nonempty greedy capture of id characters,
unanchored: the scan finds the leftmost position where the marker occurs
and is followed by at least one id character, and captures the maximal
run of id characters there. -/
def firstCapture (m : List Char) : List Char → Option (List Char)
  | [] => none
  | c :: rest =>
    match m.isPrefixOf (c :: rest), ((c :: rest).drop m.length).takeWhile isIdChar with
    | true, x :: xs => some (x :: xs)
    | true, [] => firstCapture m rest
    | false, _ => firstCapture m rest

/-- Body of getVideoId on the character list: the four recognized URL
shapes are tried in order and the first captured identifier is returned. -/
def getVideoIdAux (s : List Char) : Option (List Char) :=
  match firstCapture shortMarker s with
  | some cap => some cap
  | none =>
    match firstCapture watchMarker s with
    | some cap => some cap
    | none =>
      match firstCapture vMarker s with
      | some cap => some cap
      | none =>
        match firstCapture embedMarker s with
        | some cap => some cap
        | none => none

/-- Embedding of getVideoId from src/lib/utils.ts: a falsy input gives
null, otherwise the four recognized URL shapes are tried in order. -/
def getVideoId (url : String) : Option String :=
  if url = "" then none
  else (getVideoIdAux url.data).map fun cap => ⟨cap⟩

/-- A string contains one of the recognized shapes when the marker occurs
somewhere in it immediately followed by at least one id character; this is
exactly when the corresponding regex of getVideoId matches. -/
def containsShape (m s : List Char) : Prop :=
  ∃ (a : List Char) (c : Char) (d : List Char), s = a ++ m ++ c :: d ∧ isIdChar c = true

/-- Embedding of getThumbnailUrl from src/lib/utils.ts. -/
def getThumbnailUrl (videoId : String) : String :=
  "https://img.youtube.com/vi/" ++ videoId ++ "/maxresdefault.jpg"

/-- Line terminator characters, which the dot of a JavaScript regex does
not match. -/
def lineTerminator (c : Char) : Bool :=
  c == '\n' || c == '\r' || c == '\u2028' || c == '\u2029'

/-- Match of the optional scheme group of the validator regex: the two
scheme alternatives and the following groups start with distinct
characters, so greedy stripping is the backtracking match. -/
def stripScheme (s : List Char) : List Char :=
  if "https://".data.isPrefixOf s then s.drop 8
  else if "http://".data.isPrefixOf s then s.drop 7
  else s

/-- Match of the optional www. group of the validator regex. -/
def stripWww (s : List Char) : List Char :=
  if "www.".data.isPrefixOf s then s.drop 4 else s

/-- Match of the host alternation and its slash in the validator regex. -/
def hostRest (s : List Char) : Option (List Char) :=
  if "youtube.com/".data.isPrefixOf s then some (s.drop 12)
  else if "youtu.be/".data.isPrefixOf s then some (s.drop 9)
  else none

/-- Embedding of isValidYouTubeUrl from src/lib/utils.ts, the anchored
regex with an optional http or https scheme, an optional www. prefix,
the host youtube.com or youtu.be, a slash, and at least one further
character matched by a dot, which excludes line terminators. -/
def isValidYouTubeUrl (url : String) : Bool :=
  match hostRest (stripWww (stripScheme url.data)) with
  | some (c :: _) => !lineTerminator c
  | _ => false

/-- Declarative characterization of the strings the validator regex
accepts, written from the shape of the regex: an optional scheme, an
optional www. prefix, one of the two hosts with its slash, and then at
least one character that is not a line terminator. -/
def validUrlSpec (s : List Char) : Prop :=
  ∃ (sch w h : List Char) (c : Char) (rest : List Char),
    (sch = [] ∨ sch = "http://".data ∨ sch = "https://".data) ∧
    (w = [] ∨ w = "www.".data) ∧
    (h = "youtube.com/".data ∨ h = "youtu.be/".data) ∧
    lineTerminator c = false ∧
    s = sch ++ w ++ h ++ c :: rest

/-- Unit list of formatFileSize from src/lib/utils.ts. -/
def sizes : List String := ["Bytes", "KB", "MB", "GB"]

/-- Rendering of a count of hundredths the way JavaScript renders
parseFloat of a toFixed two string: trailing zeros of the two decimal
places are stripped, an integral value is rendered without a point. -/
def renderFixed2 (n : Nat) : String :=
  let ip := n / 100
  let fp := n % 100
  if fp == 0 then toString ip
  else if fp % 10 == 0 then toString ip ++ "." ++ toString (fp / 10)
  else if fp < 10 then toString ip ++ ".0" ++ toString fp
  else toString ip ++ "." ++ toString fp

/-- Body of formatFileSize after the zero test, at unit index i.
The JavaScript expression bytes divided by 1024 to the i, taken to two
fixed decimals, is half up rounding of 100 times the quotient, which for
naturals is the floor below. A unit index beyond the list renders the
JavaScript undefined value, which string concatenation prints as the
word undefined. -/
def formatFileSizeAux (bytes i : Nat) : String :=
  renderFixed2 ((200 * bytes + 1024 ^ i) / (2 * 1024 ^ i)) ++ " " ++
    ((sizes.get? i).getD "undefined")

/-- Embedding of formatFileSize from src/lib/utils.ts, with the floating
point logarithm floor modelled by the exact base 1024 natural logarithm. -/
def formatFileSize (bytes : Nat) : String :=
  if bytes = 0 then "0 Bytes" else formatFileSizeAux bytes (Nat.log 1024 bytes)

end Utils

/-- A thrown JavaScript value: either an Error object carrying a message,
or any non Error value. -/
inductive JsError where
  | errorObj (message : String)
  | nonError
deriving Repr, DecidableEq

/-- Message recovery used by every catch block of the repository:
error instanceof Error gives the message of the Error, any other thrown
value gives the fixed fallback text. -/
def jsErrorMessage : JsError → String
  | .errorObj m => m
  | .nonError => "Failed to download video"

/-- JavaScript truthiness of an optional string: absent and empty are falsy. -/
def truthyString : Option String → Bool
  | none => false
  | some s => s != ""

/-- The JavaScript expression x or else null on an optional string. -/
def orNullString (o : Option String) : Option String :=
  if truthyString o then o else none

/-- The JavaScript expression x or else null on an optional number,
where zero is falsy. -/
def orNullNat : Option Nat → Option Nat
  | none => none
  | some n => if n == 0 then none else some n

/-- The JavaScript expression x or else d on an optional string. -/
def truthyStringGetD (o : Option String) (d : String) : String :=
  match o with
  | none => d
  | some s => if s == "" then d else s

/-- A DOM anchor click that triggers a browser save, recorded as an
explicit event with the anchor href and its download attribute. -/
structure SaveEvent where
  href : String
  downloadName : String
deriving Repr, DecidableEq

namespace YoutubeService

/-- Embedding of the DownloadOptions interface of
src/services/youtubeService.ts. -/
structure DownloadOptions where
  videoId : String
  quality : String
  includeSubtitles : Bool
  includeThumbnail : Bool
deriving Repr, DecidableEq

/-- Embedding of the additionalFiles entries of the DownloadResponse
interface. -/
structure AdditionalFile where
  type : String
  name : String
  content : String
deriving Repr, DecidableEq

/-- Shape of the data object the Supabase edge function resolves with;
every field is optional because the remote response is untyped. -/
structure BackendData where
  downloadUrl : Option String := none
  filename : Option String := none
  fileSize : Option Nat := none
  fileType : Option String := none
  additionalFiles : Option (List AdditionalFile) := none
deriving Repr, DecidableEq

/-- Embedding of the DownloadResponse interface of
src/services/youtubeService.ts. -/
structure DownloadResponse where
  success : Bool
  url : Option String := none
  error : Option String := none
  message : Option String := none
  filename : Option String := none
  fileSize : Option Nat := none
  fileType : Option String := none
  additionalFiles : Option (List AdditionalFile) := none
deriving Repr, DecidableEq

/-- Behaviour of the awaited supabase.functions.invoke call: it resolves
with a data object or null, resolves with an error object whose message
may be absent, or rejects with a thrown value. -/
inductive InvokeOutcome where
  | ok (data : Option BackendData)
  | fnError (message : Option String)
  | thrown (e : JsError)
deriving Repr, DecidableEq

/-- Embedding of getFormatFromQuality from src/services/youtubeService.ts. -/
def getFormatFromQuality (quality : String) : String :=
  if quality == "360p" then "18"
  else if quality == "720p" then "22"
  else if quality == "1080p" then "137+140"
  else if quality == "4K" then "313+140"
  else "22"

/-- Request body sent to the edge function by downloadYouTubeVideo. -/
structure InvokeBody where
  videoId : String
  quality : String
  includeSubtitles : Bool
  includeThumbnail : Bool
deriving Repr, DecidableEq

/-- Body construction of the invoke call in downloadYouTubeVideo: the
quality label is translated to a format code. -/
def invokeBody (options : DownloadOptions) : InvokeBody :=
  { videoId := options.videoId
    quality := getFormatFromQuality options.quality
    includeSubtitles := options.includeSubtitles
    includeThumbnail := options.includeThumbnail }

/-- Try block of downloadYouTubeVideo from src/services/youtubeService.ts:
a function error is rethrown with its message, a missing data object or a
falsy downloadUrl raises the missing URL error, otherwise the normalized
success record is produced. -/
def downloadYouTubeVideoTry (options : DownloadOptions) (outcome : InvokeOutcome) :
    Except JsError DownloadResponse :=
  match outcome with
  | .thrown e => .error e
  | .fnError msg => .error (.errorObj (truthyStringGetD msg "Failed to download video"))
  | .ok dataOpt =>
    match dataOpt with
    | none => .error (.errorObj "No download URL provided by the server")
    | some data =>
      if truthyString data.downloadUrl then
        .ok { success := true
              url := data.downloadUrl
              message := some "Video fetched successfully"
              filename := data.filename
              fileSize := data.fileSize
              fileType := data.fileType
              additionalFiles := data.additionalFiles }
      else .error (.errorObj "No download URL provided by the server")

/-- Embedding of downloadYouTubeVideo from src/services/youtubeService.ts:
the whole body runs inside a try catch that normalizes every thrown value
to a failure record. -/
def downloadYouTubeVideo (options : DownloadOptions) (outcome : InvokeOutcome) :
    DownloadResponse :=
  match downloadYouTubeVideoTry options outcome with
  | .ok r => r
  | .error e => { success := false, error := some (jsErrorMessage e) }

end YoutubeService

namespace FetchService

/-- Parsed JSON body of the fetch response in the older draft of
downloadYouTubeVideo; both the error path and the success path read from
it, every field optional. -/
structure FetchData where
  message : Option String := none
  downloadUrl : Option String := none
deriving Repr, DecidableEq

/-- Behaviour of the awaited fetch call of the older draft: the fetch
itself rejects, or a response arrives with its ok flag and a json body
whose parsing may itself reject. -/
inductive FetchOutcome where
  | thrown (e : JsError)
  | resp (ok : Bool) (json : Except JsError FetchData)
deriving Repr

/-- Try block of the older fetch based downloadYouTubeVideo draft:
a non ok response rethrows the parsed error message, a falsy downloadUrl
raises the missing URL error, and a present URL triggers an anchor click
save before the success record is returned. -/
def downloadYouTubeVideoTry (options : YoutubeService.DownloadOptions)
    (outcome : FetchOutcome) :
    Except JsError (YoutubeService.DownloadResponse × List SaveEvent) :=
  match outcome with
  | .thrown e => .error e
  | .resp ok json =>
    if ok then
      match json with
      | .error e => .error e
      | .ok data =>
        if truthyString data.downloadUrl then
          .ok ({ success := true
                 url := data.downloadUrl
                 message := some "Download started successfully" },
               [{ href := data.downloadUrl.getD ""
                  downloadName := "youtube_video_" ++ options.videoId ++ ".mp4" }])
        else .error (.errorObj "No download URL provided by the server")
    else
      match json with
      | .error e => .error e
      | .ok errorData =>
        .error (.errorObj (truthyStringGetD errorData.message "Failed to download video"))

/-- Embedding of the older fetch based downloadYouTubeVideo draft, whole
body inside a try catch that normalizes every thrown value to a failure
record with no save event. -/
def downloadYouTubeVideo (options : YoutubeService.DownloadOptions)
    (outcome : FetchOutcome) :
    YoutubeService.DownloadResponse × List SaveEvent :=
  match downloadYouTubeVideoTry options outcome with
  | .ok r => r
  | .error e => ({ success := false, error := some (jsErrorMessage e) }, [])

end FetchService

namespace Downloader

/-- The four workflow stages of the downloadStage state of the component. -/
inductive Stage where
  | idle
  | fetching
  | processing
  | ready
deriving Repr, DecidableEq

/-- Embedding of the DownloadOptions interface of the component. -/
structure DownloadOptions where
  quality : String
  includeSubtitles : Bool
  includeThumbnail : Bool
deriving Repr, DecidableEq

/-- The useState cells of the second YouTubeDownloader component version,
gathered into one record. -/
structure ComponentState where
  url : String
  videoId : Option String
  thumbnailUrl : String
  isUrlValid : Bool
  options : DownloadOptions
  isLoading : Bool
  downloadProgress : Nat
  isDownloading : Bool
  downloadUrl : Option String
  downloadFilename : Option String
  downloadFileSize : Option Nat
  downloadStage : Stage
deriving Repr, DecidableEq

/-- Kinds of toast notifications the handler can surface. -/
inductive ToastKind where
  | error
  | info
  | success
deriving Repr, DecidableEq

/-- A surfaced toast notification with its title and optional description. -/
structure Toast where
  kind : ToastKind
  title : String
  description : Option String := none
deriving Repr, DecidableEq

/-- The validation toast of the guard of handleFetchVideo. -/
def validationToast : Toast :=
  { kind := .error, title := "Please enter a valid YouTube URL" }

/-- The request record handleFetchVideo passes to the backend client,
built from the stored video id and the selected options. -/
def requestOf (s : ComponentState) : YoutubeService.DownloadOptions :=
  { videoId := s.videoId.getD ""
    quality := s.options.quality
    includeSubtitles := s.options.includeSubtitles
    includeThumbnail := s.options.includeThumbnail }

/-- Embedding of handleFetchVideo of the second YouTubeDownloader
component version: the guard rejects a falsy isUrlValid or videoId,
otherwise the staged progress updates run, the backend client is called,
and the try catch ends in the ready state on success or back in the idle
state on failure, with isLoading cleared in the finally block. The
behaviour of the awaited backend call is the outcome parameter. -/
def handleFetchVideo (s : ComponentState) (outcome : YoutubeService.InvokeOutcome) :
    ComponentState × List Toast :=
  if !s.isUrlValid || !truthyString s.videoId then
    (s, [validationToast])
  else
    let s1 := { s with
      isLoading := true
      isDownloading := true
      downloadStage := Stage.fetching
      downloadProgress := 10 }
    let t1 : Toast := { kind := .info
                        title := "Fetching video..."
                        description := some ("Getting video in " ++ s.options.quality ++ " quality") }
    let s2 := { s1 with downloadProgress := 30, downloadStage := Stage.processing }
    let t2 : Toast := { kind := .info
                        title := "Processing video..."
                        description := some "Converting format and preparing download" }
    let s3 := { s2 with downloadProgress := 60 }
    let result := YoutubeService.downloadYouTubeVideo (requestOf s) outcome
    if result.success then
      let s4 := { s3 with
        downloadProgress := 100
        downloadStage := Stage.ready
        downloadUrl := orNullString result.url
        downloadFilename := orNullString result.filename
        downloadFileSize := orNullNat result.fileSize }
      let t3 : Toast := { kind := .success
                          title := "Video ready to download"
                          description := some ("File: " ++ truthyStringGetD result.filename "video.mp4") }
      ({ s4 with isLoading := false }, [t1, t2, t3])
    else
      let t3 : Toast := { kind := .error
                          title := "Failed to fetch video"
                          description := some (truthyStringGetD result.error "Failed to fetch video") }
      let s4 := { s3 with downloadStage := Stage.idle, downloadProgress := 0 }
      ({ s4 with isLoading := false }, [t1, t2, t3])

/-- Embedding of handleDownload, the client side save trigger: a falsy
downloadUrl is a no op, otherwise one anchor click save event fires with
the stored url and the stored filename or its default. -/
def handleDownload (s : ComponentState) : List SaveEvent :=
  if truthyString s.downloadUrl then
    [{ href := s.downloadUrl.getD ""
       downloadName := truthyStringGetD s.downloadFilename "youtube_video.mp4" }]
  else []

/-- Embedding of resetDownload of the component. -/
def resetDownload (s : ComponentState) : ComponentState :=
  { s with
    downloadUrl := none
    downloadStage := Stage.idle
    downloadProgress := 0
    isDownloading := false }

end Downloader

/-- Fixture: a component state in the idle stage with a validated URL,
as produced by handleUrlChange on a standard watch URL. -/
def validIdleState : Downloader.ComponentState :=
  { url := "https://www.youtube.com/watch?v=dQw4w9WgXcQ"
    videoId := some "dQw4w9WgXcQ"
    thumbnailUrl := "https://img.youtube.com/vi/dQw4w9WgXcQ/maxresdefault.jpg"
    isUrlValid := true
    options := { quality := "720p", includeSubtitles := false, includeThumbnail := true }
    isLoading := false
    downloadProgress := 0
    isDownloading := false
    downloadUrl := none
    downloadFilename := none
    downloadFileSize := none
    downloadStage := Downloader.Stage.idle }

/-- Fixture: the component state after a completed successful attempt,
in the ready stage with a resolved url and filename. -/
def readyState : Downloader.ComponentState :=
  { validIdleState with
    isDownloading := true
    downloadProgress := 100
    downloadUrl := some "https://files.example/v1.mp4"
    downloadFilename := some "v1.mp4"
    downloadFileSize := some 12345678
    downloadStage := Downloader.Stage.ready }

/-- Fixture: a backend outcome whose data object carries a download URL
but no filename. -/
def urlOnlyOutcome : YoutubeService.InvokeOutcome :=
  YoutubeService.InvokeOutcome.ok (some { downloadUrl := some "https://files.example/v2.mp4" })

-- Concrete evaluations of the embedded definitions.
example : Utils.getVideoId "https://www.youtube.com/watch?v=dQw4w9WgXcQ" = some "dQw4w9WgXcQ" := by decide
example : Utils.getVideoId "hello" = none := by decide
example : Utils.getVideoId "" = none := by decide
example : Utils.isValidYouTubeUrl "https://youtube.com/foo" = true := by decide
example : Utils.isValidYouTubeUrl "youtu.be/x" = true := by decide
example : Utils.isValidYouTubeUrl "https://example.com/watch?v=a" = false := by decide
example : Utils.renderFixed2 100 = "1" := by decide
example : Utils.renderFixed2 293 = "2.93" := by decide
example : Utils.renderFixed2 150 = "1.5" := by decide
example : Utils.renderFixed2 105 = "1.05" := by decide
example : Utils.formatFileSizeAux 1024 1 = "1 KB" := by decide
example : Utils.formatFileSizeAux 1536 1 = "1.5 KB" := by decide

/-! ## Supporting lemmas -/

theorem truthyString_iff (o : Option String) :
    truthyString o = true ↔ ∃ u, o = some u ∧ u ≠ "" := by
  cases o <;> simp [truthyString]

theorem orNullString_of_truthy (o : Option String) (h : truthyString o = true) :
    orNullString o = o := by
  simp [orNullString, h]

namespace YoutubeService

/-- Inversion of the backend client: a success result arises only from a
resolved data object with a truthy download URL, and the result is then
exactly the normalized success record. -/
theorem downloadYouTubeVideo_success_inv (o : DownloadOptions) (oc : InvokeOutcome)
    (h : (downloadYouTubeVideo o oc).success = true) :
    ∃ bd : BackendData, oc = InvokeOutcome.ok (some bd) ∧
      truthyString bd.downloadUrl = true ∧
      downloadYouTubeVideo o oc =
        { success := true
          url := bd.downloadUrl
          message := some "Video fetched successfully"
          filename := bd.filename
          fileSize := bd.fileSize
          fileType := bd.fileType
          additionalFiles := bd.additionalFiles } := by
  cases oc with
  | thrown e => simp [downloadYouTubeVideo, downloadYouTubeVideoTry] at h
  | fnError m => simp [downloadYouTubeVideo, downloadYouTubeVideoTry] at h
  | ok dataOpt =>
    cases dataOpt with
    | none => simp [downloadYouTubeVideo, downloadYouTubeVideoTry] at h
    | some bd =>
      by_cases ht : truthyString bd.downloadUrl = true
      · exact ⟨bd, rfl, ht, by simp [downloadYouTubeVideo, downloadYouTubeVideoTry, ht]⟩
      · simp [downloadYouTubeVideo, downloadYouTubeVideoTry, ht] at h

/-- Every failure of the try block is normalized by the catch block. -/
theorem downloadYouTubeVideo_catch (o : DownloadOptions) (oc : InvokeOutcome) (e : JsError)
    (h : downloadYouTubeVideoTry o oc = Except.error e) :
    downloadYouTubeVideo o oc = { success := false, error := some (jsErrorMessage e) } := by
  simp [downloadYouTubeVideo, h]

/-- The result is a success record or a failure record with an error
message, never anything else. -/
theorem downloadYouTubeVideo_shape (o : DownloadOptions) (oc : InvokeOutcome) :
    (downloadYouTubeVideo o oc).success = true ∨
      ((downloadYouTubeVideo o oc).success = false ∧
        (downloadYouTubeVideo o oc).error ≠ none) := by
  unfold downloadYouTubeVideo
  cases hb : downloadYouTubeVideoTry o oc with
  | error e => simp
  | ok r =>
    cases oc with
    | thrown e => simp [downloadYouTubeVideoTry] at hb
    | fnError m => simp [downloadYouTubeVideoTry] at hb
    | ok dataOpt =>
      cases dataOpt with
      | none => simp [downloadYouTubeVideoTry] at hb
      | some bd =>
        by_cases ht : truthyString bd.downloadUrl = true
        · simp [downloadYouTubeVideoTry, ht] at hb
          simp [← hb]
        · simp [downloadYouTubeVideoTry, ht] at hb

end YoutubeService

namespace FetchService

/-- Catch normalization of the older fetch based draft. -/
theorem fetchClient_catch (o : YoutubeService.DownloadOptions)
    (oc : FetchOutcome) (e : JsError)
    (h : downloadYouTubeVideoTry o oc = Except.error e) :
    downloadYouTubeVideo o oc =
      ({ success := false, error := some (jsErrorMessage e) }, []) := by
  simp [downloadYouTubeVideo, h]

/-- Result shape of the older fetch based draft. -/
theorem fetchClient_shape (o : YoutubeService.DownloadOptions) (oc : FetchOutcome) :
    (downloadYouTubeVideo o oc).1.success = true ∨
      ((downloadYouTubeVideo o oc).1.success = false ∧
        (downloadYouTubeVideo o oc).1.error ≠ none) := by
  unfold downloadYouTubeVideo
  cases hb : downloadYouTubeVideoTry o oc with
  | error e => simp
  | ok r =>
    cases oc with
    | thrown e => simp [downloadYouTubeVideoTry] at hb
    | resp ok json =>
      cases ok with
      | false =>
        cases json with
        | error e => simp [downloadYouTubeVideoTry] at hb
        | ok fd => simp [downloadYouTubeVideoTry] at hb
      | true =>
        cases json with
        | error e => simp [downloadYouTubeVideoTry] at hb
        | ok fd =>
          by_cases ht : truthyString fd.downloadUrl = true
          · simp [downloadYouTubeVideoTry, ht] at hb
            simp [← hb]
          · simp [downloadYouTubeVideoTry, ht] at hb

end FetchService

/-! ## Claim theorems -/

/-- C8: getFormatFromQuality is total on strings: the four known quality
labels map to their format codes 18, 22, 137+140 and 313+140, and every
other label maps to the same code as the 720p label. -/
theorem getFormatFromQuality_total :
    YoutubeService.getFormatFromQuality "360p" = "18" ∧
    YoutubeService.getFormatFromQuality "720p" = "22" ∧
    YoutubeService.getFormatFromQuality "1080p" = "137+140" ∧
    YoutubeService.getFormatFromQuality "4K" = "313+140" ∧
    ∀ q : String, q ∉ (["360p", "720p", "1080p", "4K"] : List String) →
      YoutubeService.getFormatFromQuality q = YoutubeService.getFormatFromQuality "720p" := by
  refine ⟨rfl, rfl, rfl, rfl, ?_⟩
  intro q hq
  simp only [List.mem_cons, List.mem_singleton, not_or] at hq
  obtain ⟨h1, h2, h3, h4⟩ := hq
  simp [YoutubeService.getFormatFromQuality, h1, h2, h3, h4]

/-- Witness for C8 at the unknown label 480p. -/
theorem getFormatFromQuality_total_witness :
    ("480p" : String) ∉ (["360p", "720p", "1080p", "4K"] : List String) ∧
      YoutubeService.getFormatFromQuality "480p" = YoutubeService.getFormatFromQuality "720p" :=
  ⟨by decide, getFormatFromQuality_total.2.2.2.2 "480p" (by decide)⟩

/-- C4: for every request and every behaviour of the delegated backend
call, both backend client versions never propagate an exception: the
result is always a normalized record, a failure always carries an error
message, and every thrown value is caught and turned into the failure
record with that message. -/
theorem downloadYouTubeVideo_no_throw :
    (∀ (o : YoutubeService.DownloadOptions) (oc : YoutubeService.InvokeOutcome),
      (YoutubeService.downloadYouTubeVideo o oc).success = true ∨
        ((YoutubeService.downloadYouTubeVideo o oc).success = false ∧
          (YoutubeService.downloadYouTubeVideo o oc).error ≠ none)) ∧
    (∀ (o : YoutubeService.DownloadOptions) (oc : YoutubeService.InvokeOutcome) (e : JsError),
      YoutubeService.downloadYouTubeVideoTry o oc = Except.error e →
      YoutubeService.downloadYouTubeVideo o oc =
        { success := false, error := some (jsErrorMessage e) }) ∧
    (∀ (o : YoutubeService.DownloadOptions) (oc : FetchService.FetchOutcome),
      (FetchService.downloadYouTubeVideo o oc).1.success = true ∨
        ((FetchService.downloadYouTubeVideo o oc).1.success = false ∧
          (FetchService.downloadYouTubeVideo o oc).1.error ≠ none)) ∧
    (∀ (o : YoutubeService.DownloadOptions) (oc : FetchService.FetchOutcome) (e : JsError),
      FetchService.downloadYouTubeVideoTry o oc = Except.error e →
      FetchService.downloadYouTubeVideo o oc =
        ({ success := false, error := some (jsErrorMessage e) }, [])) :=
  ⟨YoutubeService.downloadYouTubeVideo_shape,
   YoutubeService.downloadYouTubeVideo_catch,
   FetchService.fetchClient_shape,
   FetchService.fetchClient_catch⟩

/-- Witness for C4: a non Error thrown value at a concrete request is
normalized to the failure record with the fallback message. -/
theorem downloadYouTubeVideo_no_throw_witness :
    YoutubeService.downloadYouTubeVideoTry (Downloader.requestOf validIdleState)
        (YoutubeService.InvokeOutcome.thrown JsError.nonError) =
      Except.error JsError.nonError ∧
    YoutubeService.downloadYouTubeVideo (Downloader.requestOf validIdleState)
        (YoutubeService.InvokeOutcome.thrown JsError.nonError) =
      { success := false, error := some (jsErrorMessage JsError.nonError) } :=
  ⟨rfl, downloadYouTubeVideo_no_throw.2.1 (Downloader.requestOf validIdleState)
    (YoutubeService.InvokeOutcome.thrown JsError.nonError) JsError.nonError rfl⟩

/-- C5: in both backend client versions, a delegated call that completes
without error but carries an absent or empty download URL yields the
failure record with the specific missing URL message, with no exception
and no save event. -/
theorem downloadYouTubeVideo_missing_url :
    (∀ (o : YoutubeService.DownloadOptions) (d : Option YoutubeService.BackendData),
      (d = none ∨ ∃ bd, d = some bd ∧ truthyString bd.downloadUrl = false) →
      YoutubeService.downloadYouTubeVideo o (YoutubeService.InvokeOutcome.ok d) =
        { success := false, error := some "No download URL provided by the server" }) ∧
    (∀ (o : YoutubeService.DownloadOptions) (fd : FetchService.FetchData),
      truthyString fd.downloadUrl = false →
      FetchService.downloadYouTubeVideo o (FetchService.FetchOutcome.resp true (Except.ok fd)) =
        ({ success := false, error := some "No download URL provided by the server" }, [])) := by
  constructor
  · intro o d h
    rcases h with h | ⟨bd, rfl, hf⟩
    · subst h
      rfl
    · simp [YoutubeService.downloadYouTubeVideo, YoutubeService.downloadYouTubeVideoTry,
        hf, jsErrorMessage]
  · intro o fd hf
    simp [FetchService.downloadYouTubeVideo, FetchService.downloadYouTubeVideoTry,
      hf, jsErrorMessage]

/-- Witness for C5: a resolved data object with an empty string URL at a
concrete request yields the specific missing URL failure. -/
theorem downloadYouTubeVideo_missing_url_witness :
    ((some { downloadUrl := some "" } : Option YoutubeService.BackendData) = none ∨
      ∃ bd, (some { downloadUrl := some "" } : Option YoutubeService.BackendData) = some bd ∧
        truthyString bd.downloadUrl = false) ∧
    YoutubeService.downloadYouTubeVideo (Downloader.requestOf validIdleState)
        (YoutubeService.InvokeOutcome.ok (some { downloadUrl := some "" })) =
      { success := false, error := some "No download URL provided by the server" } :=
  ⟨Or.inr ⟨{ downloadUrl := some "" }, rfl, by decide⟩,
   downloadYouTubeVideo_missing_url.1 (Downloader.requestOf validIdleState)
     (some { downloadUrl := some "" }) (Or.inr ⟨{ downloadUrl := some "" }, rfl, by decide⟩)⟩

/-- C2: whenever the guard passes and the backend client reports failure,
the attempt ends in the idle stage with progress zero, loading cleared,
and an error toast surfacing the failure message. -/
theorem handleFetchVideo_failure_idle (s : Downloader.ComponentState)
    (outcome : YoutubeService.InvokeOutcome)
    (hv : s.isUrlValid = true) (hid : truthyString s.videoId = true)
    (hf : (YoutubeService.downloadYouTubeVideo (Downloader.requestOf s) outcome).success = false) :
    (Downloader.handleFetchVideo s outcome).1.downloadStage = Downloader.Stage.idle ∧
    (Downloader.handleFetchVideo s outcome).1.downloadProgress = 0 ∧
    (Downloader.handleFetchVideo s outcome).1.isLoading = false ∧
    Downloader.Toast.mk Downloader.ToastKind.error "Failed to fetch video"
        (some (truthyStringGetD
          (YoutubeService.downloadYouTubeVideo (Downloader.requestOf s) outcome).error
          "Failed to fetch video"))
      ∈ (Downloader.handleFetchVideo s outcome).2 := by
  simp [Downloader.handleFetchVideo, hv, hid, hf]

/-- Witness for C2 at a concrete state and a failing function error. -/
theorem handleFetchVideo_failure_idle_witness :
    validIdleState.isUrlValid = true ∧
    truthyString validIdleState.videoId = true ∧
    (YoutubeService.downloadYouTubeVideo (Downloader.requestOf validIdleState)
      (YoutubeService.InvokeOutcome.fnError (some "edge function crashed"))).success = false ∧
    ((Downloader.handleFetchVideo validIdleState
        (YoutubeService.InvokeOutcome.fnError (some "edge function crashed"))).1.downloadStage =
        Downloader.Stage.idle ∧
      (Downloader.handleFetchVideo validIdleState
        (YoutubeService.InvokeOutcome.fnError (some "edge function crashed"))).1.downloadProgress = 0 ∧
      (Downloader.handleFetchVideo validIdleState
        (YoutubeService.InvokeOutcome.fnError (some "edge function crashed"))).1.isLoading = false ∧
      Downloader.Toast.mk Downloader.ToastKind.error "Failed to fetch video"
          (some (truthyStringGetD
            (YoutubeService.downloadYouTubeVideo (Downloader.requestOf validIdleState)
              (YoutubeService.InvokeOutcome.fnError (some "edge function crashed"))).error
            "Failed to fetch video"))
        ∈ (Downloader.handleFetchVideo validIdleState
            (YoutubeService.InvokeOutcome.fnError (some "edge function crashed"))).2) :=
  ⟨rfl, by decide, by decide,
   handleFetchVideo_failure_idle validIdleState
     (YoutubeService.InvokeOutcome.fnError (some "edge function crashed"))
     rfl (by decide) (by decide)⟩

/-- C1 amended: whenever the guard passes and the backend client reports
success, the attempt ends in the ready stage with progress 100 and a non
empty download url exposed for the save trigger; the download filename is
the backend filename when that is truthy and null otherwise. -/
theorem handleFetchVideo_success_ready (s : Downloader.ComponentState)
    (outcome : YoutubeService.InvokeOutcome)
    (hv : s.isUrlValid = true) (hid : truthyString s.videoId = true)
    (hs : (YoutubeService.downloadYouTubeVideo (Downloader.requestOf s) outcome).success = true) :
    (Downloader.handleFetchVideo s outcome).1.downloadStage = Downloader.Stage.ready ∧
    (Downloader.handleFetchVideo s outcome).1.downloadProgress = 100 ∧
    (∃ u, u ≠ "" ∧ (Downloader.handleFetchVideo s outcome).1.downloadUrl = some u) ∧
    (Downloader.handleFetchVideo s outcome).1.downloadUrl =
      (YoutubeService.downloadYouTubeVideo (Downloader.requestOf s) outcome).url ∧
    (Downloader.handleFetchVideo s outcome).1.downloadFilename =
      orNullString (YoutubeService.downloadYouTubeVideo (Downloader.requestOf s) outcome).filename := by
  obtain ⟨bd, hoc, ht, heq⟩ :=
    YoutubeService.downloadYouTubeVideo_success_inv (Downloader.requestOf s) outcome hs
  have hurl : (YoutubeService.downloadYouTubeVideo (Downloader.requestOf s) outcome).url =
      bd.downloadUrl := by rw [heq]
  obtain ⟨u, hu, hne⟩ := (truthyString_iff bd.downloadUrl).mp ht
  refine ⟨?_, ?_, ?_, ?_, ?_⟩ <;>
    simp [Downloader.handleFetchVideo, hv, hid, hs, hurl, heq,
      orNullString_of_truthy _ ht]
  exact ⟨u, hne, by simp [hu]⟩

/-- Witness for C1 amended at a concrete state and a success outcome. -/
theorem handleFetchVideo_success_ready_witness :
    validIdleState.isUrlValid = true ∧
    truthyString validIdleState.videoId = true ∧
    (YoutubeService.downloadYouTubeVideo (Downloader.requestOf validIdleState)
      urlOnlyOutcome).success = true ∧
    ((Downloader.handleFetchVideo validIdleState urlOnlyOutcome).1.downloadStage =
        Downloader.Stage.ready ∧
      (Downloader.handleFetchVideo validIdleState urlOnlyOutcome).1.downloadProgress = 100 ∧
      (∃ u, u ≠ "" ∧
        (Downloader.handleFetchVideo validIdleState urlOnlyOutcome).1.downloadUrl = some u) ∧
      (Downloader.handleFetchVideo validIdleState urlOnlyOutcome).1.downloadUrl =
        (YoutubeService.downloadYouTubeVideo (Downloader.requestOf validIdleState)
          urlOnlyOutcome).url ∧
      (Downloader.handleFetchVideo validIdleState urlOnlyOutcome).1.downloadFilename =
        orNullString (YoutubeService.downloadYouTubeVideo
          (Downloader.requestOf validIdleState) urlOnlyOutcome).filename) :=
  ⟨rfl, by decide, by decide,
   handleFetchVideo_success_ready validIdleState urlOnlyOutcome rfl (by decide) (by decide)⟩

/-- C1 counterexample: a successful backend call whose data object has no
filename ends in the ready stage with progress 100 but with a null
download filename, so a successful attempt does not always expose a non
empty filename. -/
theorem handleFetchVideo_success_without_filename :
    (YoutubeService.downloadYouTubeVideo (Downloader.requestOf validIdleState)
      urlOnlyOutcome).success = true ∧
    (Downloader.handleFetchVideo validIdleState urlOnlyOutcome).1.downloadStage =
      Downloader.Stage.ready ∧
    (Downloader.handleFetchVideo validIdleState urlOnlyOutcome).1.downloadProgress = 100 ∧
    (Downloader.handleFetchVideo validIdleState urlOnlyOutcome).1.downloadFilename = none := by
  decide

/-- C3 amended: an invocation with a falsy validity flag or a falsy video
id is rejected with the validation toast and leaves the whole component
state unchanged; the guard does not consult the stage, so this is the
only rejection the handler performs. -/
theorem handleFetchVideo_guard_invalid (s : Downloader.ComponentState)
    (outcome : YoutubeService.InvokeOutcome)
    (h : s.isUrlValid = false ∨ truthyString s.videoId = false) :
    Downloader.handleFetchVideo s outcome = (s, [Downloader.validationToast]) := by
  rcases h with h | h <;> simp [Downloader.handleFetchVideo, h]

/-- Witness for C3 amended at a concrete state with an unset video id. -/
theorem handleFetchVideo_guard_invalid_witness :
    (({ validIdleState with videoId := none } : Downloader.ComponentState).isUrlValid = false ∨
      truthyString ({ validIdleState with videoId := none } : Downloader.ComponentState).videoId =
        false) ∧
    Downloader.handleFetchVideo { validIdleState with videoId := none }
        (YoutubeService.InvokeOutcome.ok none) =
      ({ validIdleState with videoId := none }, [Downloader.validationToast]) :=
  ⟨Or.inr rfl,
   handleFetchVideo_guard_invalid { validIdleState with videoId := none }
     (YoutubeService.InvokeOutcome.ok none) (Or.inr rfl)⟩

/-- C3 counterexample: an invocation in the ready stage with a valid video
id is not rejected: no validation toast is surfaced and the component
state changes, so submission while not idle is not rejected by the
handler itself. -/
theorem handleFetchVideo_nonidle_not_rejected :
    readyState.downloadStage = Downloader.Stage.ready ∧
    readyState.isUrlValid = true ∧
    truthyString readyState.videoId = true ∧
    (Downloader.handleFetchVideo readyState (YoutubeService.InvokeOutcome.fnError none)).1 ≠
      readyState ∧
    Downloader.validationToast ∉
      (Downloader.handleFetchVideo readyState (YoutubeService.InvokeOutcome.fnError none)).2 := by
  decide

/-- Half up rounding to hundredths by natural division stays within half a
hundredth of the exact quotient. -/
theorem roundHundredths_close (b K : Nat) (hK : 0 < K) :
    |(((200 * b + K) / (2 * K) : Nat) : ℚ) / 100 - (b : ℚ) / (K : ℚ)| ≤ 1 / 200 := by
  set n : Nat := (200 * b + K) / (2 * K) with hn
  set r : Nat := (200 * b + K) % (2 * K) with hrdef
  have key : 2 * K * n + r = 200 * b + K := Nat.div_add_mod (200 * b + K) (2 * K)
  have hr : r < 2 * K := Nat.mod_lt _ (by omega)
  have h1 : (2 : ℚ) * K * n + r = 200 * b + K := by exact_mod_cast key
  have h2 : (r : ℚ) < 2 * K := by exact_mod_cast hr
  have h3 : (0 : ℚ) ≤ r := by positivity
  have hKQ : (0 : ℚ) < K := by exact_mod_cast hK
  have e1 : (2 : ℚ) * K * n - 200 * b = K - r := by linarith
  have hdiff : (n : ℚ) / 100 - (b : ℚ) / K = ((2 : ℚ) * K * n - 200 * b) / (200 * K) := by
    field_simp
    ring
  rw [e1] at hdiff
  rw [hdiff, abs_le]
  constructor
  · rw [le_div_iff₀ (by positivity)]
    linarith
  · rw [div_le_iff₀ (by positivity)]
    linarith

/-- C10: the unit lookup of formatFileSize stays inside its four element
unit list for every byte count from one up to but excluding 1024 to the
fourth, and the bound is tight: at 1024 to the fourth the computed index
falls outside the list. -/
theorem sizes_index_bounds :
    (∀ b : Nat, 1 ≤ b → b < 1024 ^ 4 →
      (Utils.sizes.get? (Nat.log 1024 b)).isSome = true) ∧
    Utils.sizes.get? (Nat.log 1024 (1024 ^ 4)) = none := by
  constructor
  · intro b h1 h2
    have hlog : Nat.log 1024 b < 4 :=
      (Nat.lt_pow_iff_log_lt (by norm_num) (by omega)).mp h2
    rw [List.get?_eq_get (by simpa [Utils.sizes] using hlog)]
    simp
  · rw [Nat.log_pow (by norm_num) 4]
    rfl

/-- Witness for C10 at one megabyte, whose index is inside the list. -/
theorem sizes_index_bounds_witness :
    1 ≤ 1048576 ∧ 1048576 < 1024 ^ 4 ∧
      (Utils.sizes.get? (Nat.log 1024 1048576)).isSome = true :=
  ⟨by decide, by norm_num, sizes_index_bounds.1 1048576 (by decide) (by norm_num)⟩

/-- C9 amended: formatFileSize renders zero as 0 Bytes and 1024 as 1 KB,
and for every positive byte count below 1024 to the fourth the result is
the quotient by 1024 to the logarithm index, rounded half up to at most
two decimals, followed by the unit of that index; byte counts from 1024
to the fourth upward have no unit in the list (claim C10) and render the
undefined unit instead. -/
theorem formatFileSize_spec :
    Utils.formatFileSize 0 = "0 Bytes" ∧
    Utils.formatFileSize 1024 = "1 KB" ∧
    ∀ b : Nat, 0 < b → b < 1024 ^ 4 →
      ∃ (n : Nat) (u : String),
        Utils.sizes.get? (Nat.log 1024 b) = some u ∧
        Utils.formatFileSize b = Utils.renderFixed2 n ++ " " ++ u ∧
        |(n : ℚ) / 100 - (b : ℚ) / ((1024 : ℚ) ^ Nat.log 1024 b)| ≤ 1 / 200 := by
  refine ⟨rfl, ?_, ?_⟩
  · have hl : Nat.log 1024 1024 = 1 := by
      simpa using Nat.log_pow (b := 1024) (by norm_num) 1
    have h : Utils.formatFileSize 1024 = Utils.formatFileSizeAux 1024 (Nat.log 1024 1024) := rfl
    rw [h, hl]
    decide
  · intro b hb hb4
    have hlog : Nat.log 1024 b < 4 :=
      (Nat.lt_pow_iff_log_lt (by norm_num) (by omega)).mp hb4
    have hK : 0 < 1024 ^ Nat.log 1024 b := by positivity
    have hget : Utils.sizes.get? (Nat.log 1024 b) =
        some (Utils.sizes.get ⟨Nat.log 1024 b, by simpa [Utils.sizes] using hlog⟩) :=
      List.get?_eq_get (by simpa [Utils.sizes] using hlog)
    refine ⟨(200 * b + 1024 ^ Nat.log 1024 b) / (2 * 1024 ^ Nat.log 1024 b),
      Utils.sizes.get ⟨Nat.log 1024 b, by simpa [Utils.sizes] using hlog⟩, hget, ?_, ?_⟩
    · have h : Utils.formatFileSize b = Utils.formatFileSizeAux b (Nat.log 1024 b) := by
        rw [Utils.formatFileSize, if_neg (by omega)]
      rw [h, Utils.formatFileSizeAux, hget]
      rfl
    · have := roundHundredths_close b (1024 ^ Nat.log 1024 b) hK
      have hcast : ((1024 ^ Nat.log 1024 b : Nat) : ℚ) = (1024 : ℚ) ^ Nat.log 1024 b := by
        push_cast
        ring
      rwa [hcast] at this

/-- Witness for C9 amended at two kilobytes. -/
theorem formatFileSize_spec_witness :
    0 < 2048 ∧ 2048 < 1024 ^ 4 ∧
      ∃ (n : Nat) (u : String),
        Utils.sizes.get? (Nat.log 1024 2048) = some u ∧
        Utils.formatFileSize 2048 = Utils.renderFixed2 n ++ " " ++ u ∧
        |(n : ℚ) / 100 - (2048 : ℚ) / ((1024 : ℚ) ^ Nat.log 1024 2048)| ≤ 1 / 200 :=
  ⟨by decide, by norm_num, by
    have h := formatFileSize_spec.2.2 2048 (by decide) (by norm_num)
    simpa using h⟩

/-- C9 counterexample: at exactly one tebibyte the computed index is four,
outside the unit list, and the rendered string carries the undefined unit
rather than one of the four list units, so the unrestricted claim over
every positive byte count fails. -/
theorem formatFileSize_tib_undefined :
    Utils.formatFileSize (1024 ^ 4) = "1 undefined" ∧
    "undefined" ∉ Utils.sizes ∧
    Utils.sizes.get? (Nat.log 1024 (1024 ^ 4)) = none := by
  have hl : Nat.log 1024 (1024 ^ 4) = 4 := Nat.log_pow (by norm_num) 4
  refine ⟨?_, by decide, by rw [hl]; rfl⟩
  have h : Utils.formatFileSize (1024 ^ 4) = Utils.formatFileSizeAux (1024 ^ 4) (Nat.log 1024 (1024 ^ 4)) := by
    rw [Utils.formatFileSize, if_neg (by positivity)]
  rw [h, hl]
  decide

namespace Utils

theorem isPrefixOf_ex {m s : List Char} : m.isPrefixOf s = true ↔ ∃ t, m ++ t = s := by
  rw [List.isPrefixOf_iff_prefix]
  exact Iff.rfl

theorem firstCapture_cons_skip (m : List Char) (x : Char) (t : List Char)
    (h : m.isPrefixOf (x :: t) = false) :
    firstCapture m (x :: t) = firstCapture m t := by
  simp only [firstCapture]
  rw [h]

/-- Scanning skips a region none of whose characters equals the head of
the marker. -/
theorem firstCapture_append_notMem (c0 : Char) (m' pre t : List Char)
    (h : ∀ x ∈ pre, x ≠ c0) :
    firstCapture (c0 :: m') (pre ++ t) = firstCapture (c0 :: m') t := by
  induction pre with
  | nil => rfl
  | cons x xs ih =>
    have hx : x ≠ c0 := h x (by simp)
    have hp : (c0 :: m').isPrefixOf (x :: (xs ++ t)) = false := by
      simp only [List.isPrefixOf, Bool.and_eq_false_eq_eq_false_or_eq_false]
      left
      simp [beq_eq_false_iff_ne]
      exact fun hh => hx hh.symm
    rw [List.cons_append, firstCapture_cons_skip (c0 :: m') x (xs ++ t) hp]
    exact ih fun y hy => h y (by simp [hy])

/-- A marker containing a character outside the id class cannot occur in a
string made only of id characters. -/
theorem firstCapture_eq_none_of_idchars (m s : List Char) (x : Char)
    (hx : x ∈ m) (hnx : isIdChar x = false)
    (hs : ∀ c ∈ s, isIdChar c = true) :
    firstCapture m s = none := by
  induction s with
  | nil => rfl
  | cons c rest ih =>
    have hp : m.isPrefixOf (c :: rest) = false := by
      cases hq : m.isPrefixOf (c :: rest) with
      | false => rfl
      | true =>
        obtain ⟨t, ht⟩ := isPrefixOf_ex.mp hq
        have hmem : x ∈ c :: rest := ht ▸ List.mem_append_left t hx
        have := hs x hmem
        rw [hnx] at this
        exact absurd this (by simp)
    rw [firstCapture_cons_skip m c rest hp]
    exact ih fun y hy => hs y (by simp [hy])

theorem takeWhile_all_append (p : Char → Bool) (id suf : List Char)
    (h : ∀ c ∈ id, p c = true) :
    (id ++ suf).takeWhile p = id ++ suf.takeWhile p := by
  induction id with
  | nil => rfl
  | cons c cs ih =>
    have hc : p c = true := h c (by simp)
    simp only [List.cons_append, List.takeWhile_cons, hc]
    rw [ih fun y hy => h y (by simp [hy])]
    simp

/-- At the position of the marker itself the scan captures exactly the id
that follows it when the string ends there. -/
theorem firstCapture_self_append (c0 : Char) (m' id : List Char)
    (hid1 : id ≠ []) (hid2 : ∀ c ∈ id, isIdChar c = true) :
    firstCapture (c0 :: m') ((c0 :: m') ++ id) = some id := by
  obtain ⟨x, id', rfl⟩ : ∃ x id', id = x :: id' := by
    cases id with
    | nil => exact absurd rfl hid1
    | cons x id' => exact ⟨x, id', rfl⟩
  have hpre : (c0 :: m').isPrefixOf ((c0 :: m') ++ (x :: id')) = true :=
    isPrefixOf_ex.mpr ⟨x :: id', rfl⟩
  have hdrop : (((c0 :: m') ++ (x :: id')).drop (c0 :: m').length) = x :: id' :=
    List.drop_left _ _
  have htake : (x :: id').takeWhile isIdChar = x :: id' := by
    have := takeWhile_all_append isIdChar (x :: id') [] hid2
    simpa using this
  show firstCapture (c0 :: m') (c0 :: (m' ++ (x :: id'))) = some (x :: id')
  simp only [firstCapture]
  rw [show (c0 :: (m' ++ (x :: id'))) = ((c0 :: m') ++ (x :: id')) from rfl] at *
  rw [hpre]
  rw [hdrop, htake]

theorem containsShape_cons_of_tail {m rest : List Char} {y : Char}
    (h : containsShape m rest) : containsShape m (y :: rest) := by
  obtain ⟨a, c, d, heq, hid⟩ := h
  exact ⟨y :: a, c, d, by simp [heq], hid⟩

theorem containsShape_cons_elim {m rest : List Char} {y : Char}
    (h : containsShape m (y :: rest)) :
    (∃ c d, y :: rest = m ++ c :: d ∧ isIdChar c = true) ∨ containsShape m rest := by
  obtain ⟨a, c, d, heq, hid⟩ := h
  cases a with
  | nil => exact Or.inl ⟨c, d, by simpa using heq, hid⟩
  | cons a0 a' =>
    right
    have h2 : rest = a' ++ m ++ c :: d := by
      have := heq
      simp only [List.cons_append, List.cons.injEq] at this
      exact this.2
    exact ⟨a', c, d, h2, hid⟩

/-- The scan returns none exactly when no occurrence of the marker in the
string is followed by an id character, so the scan agrees with the
declarative shape predicate. -/
theorem firstCapture_eq_none_iff (m s : List Char) :
    firstCapture m s = none ↔ ¬ containsShape m s := by
  induction s with
  | nil =>
    constructor
    · rintro - ⟨a, c, d, heq, -⟩
      exact absurd heq.symm (by simp)
    · intro h
      rfl
  | cons y rest ih =>
    cases hp : m.isPrefixOf (y :: rest) with
    | false =>
      rw [firstCapture_cons_skip m y rest hp, ih]
      constructor
      · intro h hc
        rcases containsShape_cons_elim hc with ⟨c, d, heq, hid⟩ | htail
        · exact absurd (isPrefixOf_ex.mpr ⟨c :: d, heq.symm⟩) (by simp [hp])
        · exact h htail
      · intro h hc
        exact h (containsShape_cons_of_tail hc)
    | true =>
      obtain ⟨t, ht⟩ := isPrefixOf_ex.mp hp
      have hdrop : (y :: rest).drop m.length = t := by
        rw [← ht]
        exact List.drop_left _ _
      cases hc : t.takeWhile isIdChar with
      | cons x xs =>
        have hfc : firstCapture m (y :: rest) = some (x :: xs) := by
          simp only [firstCapture]
          rw [hp, hdrop, hc]
        have hcontains : containsShape m (y :: rest) := by
          obtain ⟨t0, t', rfl⟩ : ∃ t0 t', t = t0 :: t' := by
            cases t with
            | nil => simp at hc
            | cons t0 t' => exact ⟨t0, t', rfl⟩
          have hid : isIdChar t0 = true := by
            by_contra hno
            simp only [Bool.not_eq_true] at hno
            simp [List.takeWhile_cons, hno] at hc
          exact ⟨[], t0, t', by simp [← ht], hid⟩
        rw [hfc]
        simp [hcontains]
      | nil =>
        have hfc : firstCapture m (y :: rest) = firstCapture m rest := by
          simp only [firstCapture]
          rw [hp, hdrop, hc]
        rw [hfc, ih]
        constructor
        · intro h hcont
          rcases containsShape_cons_elim hcont with ⟨c, d, heq, hid⟩ | htail
          · have hteq : t = c :: d := by
              have h2 : m ++ t = m ++ c :: d := by rw [ht, heq]
              exact List.append_cancel_left h2
            rw [hteq] at hc
            simp [List.takeWhile_cons, hid] at hc
          · exact h htail
        · intro h hcont
          exact h (containsShape_cons_of_tail hcont)

end Utils

namespace Utils

/-- A marker whose head matches but which mismatches inside the concrete
region scans to none over a concrete tail followed by id characters. -/
theorem firstCapture_none_parts (m' ktail id : List Char) (y0 x : Char)
    (hp0 : (y0 :: m').isPrefixOf (y0 :: (ktail ++ id)) = false)
    (hk : ∀ c ∈ ktail, c ≠ y0)
    (hx : x ∈ y0 :: m') (hnx : isIdChar x = false)
    (hid : ∀ c ∈ id, isIdChar c = true) :
    firstCapture (y0 :: m') (y0 :: (ktail ++ id)) = none := by
  rw [firstCapture_cons_skip _ _ _ hp0,
      firstCapture_append_notMem y0 m' ktail id hk]
  exact firstCapture_eq_none_of_idchars _ id x hx hnx hid

theorem append_ne_nil_of_mid (pre m id : List Char) (hm : m ≠ []) :
    pre ++ m ++ id ≠ [] := by
  intro h
  rcases List.append_eq_nil.mp h with ⟨h1, -⟩
  rcases List.append_eq_nil.mp h1 with ⟨-, h2⟩
  exact hm h2

theorem getVideoId_mk (l : List Char) (h : l ≠ []) :
    getVideoId ⟨l⟩ = (getVideoIdAux l).map fun cap => (⟨cap⟩ : String) := by
  rw [getVideoId, if_neg]
  intro hh
  apply h
  have h2 : (⟨l⟩ : String).data = ("" : String).data := by rw [hh]
  simpa using h2

/-- The short link shape is recognized with its exact id. -/
theorem getVideoIdAux_short (pre id : List Char)
    (hpre : ∀ c ∈ pre, c ≠ 'y') (h1 : id ≠ [])
    (h2 : ∀ c ∈ id, isIdChar c = true) :
    getVideoIdAux (pre ++ shortMarker ++ id) = some id := by
  have hs : firstCapture shortMarker (pre ++ shortMarker ++ id) = some id := by
    rw [List.append_assoc, show shortMarker = 'y' :: "outu.be/".data from rfl,
        firstCapture_append_notMem 'y' "outu.be/".data pre _ hpre]
    exact firstCapture_self_append 'y' "outu.be/".data id h1 h2
  simp only [getVideoIdAux, hs]

/-- The standard watch shape is recognized with its exact id. -/
theorem getVideoIdAux_watch (pre id : List Char)
    (hpre : ∀ c ∈ pre, c ≠ 'y') (h1 : id ≠ [])
    (h2 : ∀ c ∈ id, isIdChar c = true) :
    getVideoIdAux (pre ++ watchMarker ++ id) = some id := by
  have hn1 : firstCapture shortMarker (pre ++ watchMarker ++ id) = none := by
    rw [List.append_assoc, show shortMarker = 'y' :: "outu.be/".data from rfl,
        firstCapture_append_notMem 'y' "outu.be/".data pre _ hpre]
    exact firstCapture_none_parts "outu.be/".data "outube.com/watch?v=".data id 'y' '.'
      (by rfl) (by decide) (by decide) (by decide) h2
  have hs : firstCapture watchMarker (pre ++ watchMarker ++ id) = some id := by
    rw [List.append_assoc, show watchMarker = 'y' :: "outube.com/watch?v=".data from rfl,
        firstCapture_append_notMem 'y' "outube.com/watch?v=".data pre _ hpre]
    exact firstCapture_self_append 'y' "outube.com/watch?v=".data id h1 h2
  simp only [getVideoIdAux, hn1, hs]

/-- The legacy v path shape is recognized with its exact id. -/
theorem getVideoIdAux_vpath (pre id : List Char)
    (hpre : ∀ c ∈ pre, c ≠ 'y') (h1 : id ≠ [])
    (h2 : ∀ c ∈ id, isIdChar c = true) :
    getVideoIdAux (pre ++ vMarker ++ id) = some id := by
  have hn1 : firstCapture shortMarker (pre ++ vMarker ++ id) = none := by
    rw [List.append_assoc, show shortMarker = 'y' :: "outu.be/".data from rfl,
        firstCapture_append_notMem 'y' "outu.be/".data pre _ hpre]
    exact firstCapture_none_parts "outu.be/".data "outube.com/v/".data id 'y' '.'
      (by rfl) (by decide) (by decide) (by decide) h2
  have hn2 : firstCapture watchMarker (pre ++ vMarker ++ id) = none := by
    rw [List.append_assoc, show watchMarker = 'y' :: "outube.com/watch?v=".data from rfl,
        firstCapture_append_notMem 'y' "outube.com/watch?v=".data pre _ hpre]
    exact firstCapture_none_parts "outube.com/watch?v=".data "outube.com/v/".data id 'y' '.'
      (by rfl) (by decide) (by decide) (by decide) h2
  have hs : firstCapture vMarker (pre ++ vMarker ++ id) = some id := by
    rw [List.append_assoc, show vMarker = 'y' :: "outube.com/v/".data from rfl,
        firstCapture_append_notMem 'y' "outube.com/v/".data pre _ hpre]
    exact firstCapture_self_append 'y' "outube.com/v/".data id h1 h2
  simp only [getVideoIdAux, hn1, hn2, hs]

/-- The embed shape is recognized with its exact id. -/
theorem getVideoIdAux_embed (pre id : List Char)
    (hpre : ∀ c ∈ pre, c ≠ 'y') (h1 : id ≠ [])
    (h2 : ∀ c ∈ id, isIdChar c = true) :
    getVideoIdAux (pre ++ embedMarker ++ id) = some id := by
  have hn1 : firstCapture shortMarker (pre ++ embedMarker ++ id) = none := by
    rw [List.append_assoc, show shortMarker = 'y' :: "outu.be/".data from rfl,
        firstCapture_append_notMem 'y' "outu.be/".data pre _ hpre]
    exact firstCapture_none_parts "outu.be/".data "outube.com/embed/".data id 'y' '.'
      (by rfl) (by decide) (by decide) (by decide) h2
  have hn2 : firstCapture watchMarker (pre ++ embedMarker ++ id) = none := by
    rw [List.append_assoc, show watchMarker = 'y' :: "outube.com/watch?v=".data from rfl,
        firstCapture_append_notMem 'y' "outube.com/watch?v=".data pre _ hpre]
    exact firstCapture_none_parts "outube.com/watch?v=".data "outube.com/embed/".data id 'y' '.'
      (by rfl) (by decide) (by decide) (by decide) h2
  have hn3 : firstCapture vMarker (pre ++ embedMarker ++ id) = none := by
    rw [List.append_assoc, show vMarker = 'y' :: "outube.com/v/".data from rfl,
        firstCapture_append_notMem 'y' "outube.com/v/".data pre _ hpre]
    exact firstCapture_none_parts "outube.com/v/".data "outube.com/embed/".data id 'y' '.'
      (by rfl) (by decide) (by decide) (by decide) h2
  have hs : firstCapture embedMarker (pre ++ embedMarker ++ id) = some id := by
    rw [List.append_assoc, show embedMarker = 'y' :: "outube.com/embed/".data from rfl,
        firstCapture_append_notMem 'y' "outube.com/embed/".data pre _ hpre]
    exact firstCapture_self_append 'y' "outube.com/embed/".data id h1 h2
  simp only [getVideoIdAux, hn1, hn2, hn3, hs]

end Utils

/-- C6: getVideoId returns null on the empty string and on every string
containing none of the four recognized shapes; the shapes are tried in
order, a short link match deciding the result by itself; and each of the
four shapes, preceded by any region free of the letter y such as an http
or https scheme with an optional www. prefix, yields exactly its captured
identifier over the id alphabet. -/
theorem getVideoId_recognized_shapes :
    Utils.getVideoId "" = none ∧
    (∀ s : String,
      ¬ Utils.containsShape Utils.shortMarker s.data →
      ¬ Utils.containsShape Utils.watchMarker s.data →
      ¬ Utils.containsShape Utils.vMarker s.data →
      ¬ Utils.containsShape Utils.embedMarker s.data →
      Utils.getVideoId s = none) ∧
    (∀ (cap : List Char) (s : String),
      Utils.firstCapture Utils.shortMarker s.data = some cap →
      Utils.getVideoId s = some ⟨cap⟩) ∧
    (∀ pre id : List Char, (∀ c ∈ pre, c ≠ 'y') → id ≠ [] →
      (∀ c ∈ id, Utils.isIdChar c = true) →
      Utils.getVideoId ⟨pre ++ Utils.shortMarker ++ id⟩ = some ⟨id⟩) ∧
    (∀ pre id : List Char, (∀ c ∈ pre, c ≠ 'y') → id ≠ [] →
      (∀ c ∈ id, Utils.isIdChar c = true) →
      Utils.getVideoId ⟨pre ++ Utils.watchMarker ++ id⟩ = some ⟨id⟩) ∧
    (∀ pre id : List Char, (∀ c ∈ pre, c ≠ 'y') → id ≠ [] →
      (∀ c ∈ id, Utils.isIdChar c = true) →
      Utils.getVideoId ⟨pre ++ Utils.vMarker ++ id⟩ = some ⟨id⟩) ∧
    (∀ pre id : List Char, (∀ c ∈ pre, c ≠ 'y') → id ≠ [] →
      (∀ c ∈ id, Utils.isIdChar c = true) →
      Utils.getVideoId ⟨pre ++ Utils.embedMarker ++ id⟩ = some ⟨id⟩) := by
  refine ⟨rfl, ?_, ?_, ?_, ?_, ?_, ?_⟩
  · intro s h1 h2 h3 h4
    by_cases hs : s = ""
    · rw [hs]
      rfl
    · rw [Utils.getVideoId, if_neg hs]
      have n1 := (Utils.firstCapture_eq_none_iff Utils.shortMarker s.data).mpr h1
      have n2 := (Utils.firstCapture_eq_none_iff Utils.watchMarker s.data).mpr h2
      have n3 := (Utils.firstCapture_eq_none_iff Utils.vMarker s.data).mpr h3
      have n4 := (Utils.firstCapture_eq_none_iff Utils.embedMarker s.data).mpr h4
      simp [Utils.getVideoIdAux, n1, n2, n3, n4]
  · intro cap s h
    have hs : s ≠ "" := by
      intro he
      rw [he] at h
      simp [Utils.firstCapture] at h
    rw [Utils.getVideoId, if_neg hs]
    simp [Utils.getVideoIdAux, h]
  · intro pre id hpre h1 h2
    rw [Utils.getVideoId_mk _ (Utils.append_ne_nil_of_mid pre _ id (by decide))]
    rw [Utils.getVideoIdAux_short pre id hpre h1 h2]
    rfl
  · intro pre id hpre h1 h2
    rw [Utils.getVideoId_mk _ (Utils.append_ne_nil_of_mid pre _ id (by decide))]
    rw [Utils.getVideoIdAux_watch pre id hpre h1 h2]
    rfl
  · intro pre id hpre h1 h2
    rw [Utils.getVideoId_mk _ (Utils.append_ne_nil_of_mid pre _ id (by decide))]
    rw [Utils.getVideoIdAux_vpath pre id hpre h1 h2]
    rfl
  · intro pre id hpre h1 h2
    rw [Utils.getVideoId_mk _ (Utils.append_ne_nil_of_mid pre _ id (by decide))]
    rw [Utils.getVideoIdAux_embed pre id hpre h1 h2]
    rfl

/-- Witness for C6: the short link shape behind a scheme and www prefix
yields exactly its identifier. -/
theorem getVideoId_recognized_shapes_witness :
    (∀ c ∈ "https://www.".data, c ≠ 'y') ∧
    "dQw4w9WgXcQ".data ≠ [] ∧
    (∀ c ∈ "dQw4w9WgXcQ".data, Utils.isIdChar c = true) ∧
    Utils.getVideoId ⟨"https://www.".data ++ Utils.shortMarker ++ "dQw4w9WgXcQ".data⟩ =
      some ⟨"dQw4w9WgXcQ".data⟩ :=
  ⟨by decide, by decide, by decide,
   getVideoId_recognized_shapes.2.2.2.1 "https://www.".data "dQw4w9WgXcQ".data
     (by decide) (by decide) (by decide)⟩

namespace Utils

theorem isPrefixOf_cons_ne {a b : Char} (as bs : List Char) (h : a ≠ b) :
    (a :: as).isPrefixOf (b :: bs) = false := by
  simp only [List.isPrefixOf, Bool.and_eq_false_eq_eq_false_or_eq_false]
  left
  simp [beq_eq_false_iff_ne]
  exact h

theorem stripScheme_decomp (s : List Char) :
    ∃ sch, (sch = [] ∨ sch = "http://".data ∨ sch = "https://".data) ∧
      s = sch ++ stripScheme s := by
  unfold stripScheme
  by_cases h1 : "https://".data.isPrefixOf s = true
  · obtain ⟨t, ht⟩ := isPrefixOf_ex.mp h1
    refine ⟨"https://".data, Or.inr (Or.inr rfl), ?_⟩
    rw [if_pos h1, ← ht]
    have hd : ("https://".data ++ t).drop 8 = t := by
      simpa using List.drop_left "https://".data t
    rw [hd]
  · rw [if_neg h1]
    by_cases h2 : "http://".data.isPrefixOf s = true
    · obtain ⟨t, ht⟩ := isPrefixOf_ex.mp h2
      refine ⟨"http://".data, Or.inr (Or.inl rfl), ?_⟩
      rw [if_pos h2, ← ht]
      have hd : ("http://".data ++ t).drop 7 = t := by
        simpa using List.drop_left "http://".data t
      rw [hd]
    · exact ⟨[], Or.inl rfl, by rw [if_neg h2]; rfl⟩

theorem stripWww_decomp (s : List Char) :
    ∃ w, (w = [] ∨ w = "www.".data) ∧ s = w ++ stripWww s := by
  unfold stripWww
  by_cases h1 : "www.".data.isPrefixOf s = true
  · obtain ⟨t, ht⟩ := isPrefixOf_ex.mp h1
    refine ⟨"www.".data, Or.inr rfl, ?_⟩
    rw [if_pos h1, ← ht]
    have hd : ("www.".data ++ t).drop 4 = t := by
      simpa using List.drop_left "www.".data t
    rw [hd]
  · exact ⟨[], Or.inl rfl, by rw [if_neg h1]; rfl⟩

theorem hostRest_decomp (s t : List Char) (h : hostRest s = some t) :
    ∃ hst, (hst = "youtube.com/".data ∨ hst = "youtu.be/".data) ∧ s = hst ++ t := by
  unfold hostRest at h
  by_cases h1 : "youtube.com/".data.isPrefixOf s = true
  · obtain ⟨t', ht⟩ := isPrefixOf_ex.mp h1
    rw [if_pos h1] at h
    have hd : s.drop 12 = t' := by
      rw [← ht]
      simpa using List.drop_left "youtube.com/".data t'
    rw [hd] at h
    obtain rfl : t' = t := by simpa using h
    exact ⟨"youtube.com/".data, Or.inl rfl, ht.symm⟩
  · rw [if_neg h1] at h
    by_cases h2 : "youtu.be/".data.isPrefixOf s = true
    · obtain ⟨t', ht⟩ := isPrefixOf_ex.mp h2
      rw [if_pos h2] at h
      have hd : s.drop 9 = t' := by
        rw [← ht]
        simpa using List.drop_left "youtu.be/".data t'
      rw [hd] at h
      obtain rfl : t' = t := by simpa using h
      exact ⟨"youtu.be/".data, Or.inr rfl, ht.symm⟩
    · rw [if_neg h2] at h
      exact absurd h (by simp)

theorem stripScheme_not_h (c : Char) (r : List Char) (hc : c ≠ 'h') :
    stripScheme (c :: r) = c :: r := by
  unfold stripScheme
  rw [if_neg, if_neg]
  · intro hh
    exact absurd hh (by simp [isPrefixOf_cons_ne _ _ (Ne.symm hc)])
  · intro hh
    exact absurd hh (by simp [isPrefixOf_cons_ne _ _ (Ne.symm hc)])

theorem stripScheme_http (t : List Char) :
    stripScheme ("http://".data ++ t) = t := by
  unfold stripScheme
  have h1 : "https://".data.isPrefixOf ("http://".data ++ t) = false := rfl
  rw [if_neg (by simp [h1]), if_pos (isPrefixOf_ex.mpr ⟨t, rfl⟩)]
  simpa using List.drop_left "http://".data t

theorem stripScheme_https (t : List Char) :
    stripScheme ("https://".data ++ t) = t := by
  unfold stripScheme
  rw [if_pos (isPrefixOf_ex.mpr ⟨t, rfl⟩)]
  simpa using List.drop_left "https://".data t

theorem stripWww_not_w (c : Char) (r : List Char) (hc : c ≠ 'w') :
    stripWww (c :: r) = c :: r := by
  unfold stripWww
  rw [if_neg]
  intro hh
  exact absurd hh (by simp [isPrefixOf_cons_ne _ _ (Ne.symm hc)])

theorem stripWww_www (t : List Char) :
    stripWww ("www.".data ++ t) = t := by
  unfold stripWww
  rw [if_pos (isPrefixOf_ex.mpr ⟨t, rfl⟩)]
  simpa using List.drop_left "www.".data t

theorem hostRest_youtube (t : List Char) :
    hostRest ("youtube.com/".data ++ t) = some t := by
  unfold hostRest
  rw [if_pos (isPrefixOf_ex.mpr ⟨t, rfl⟩)]
  have hd : ("youtube.com/".data ++ t).drop 12 = t := by
    simpa using List.drop_left "youtube.com/".data t
  rw [hd]

theorem hostRest_youtube_short (t : List Char) :
    hostRest ("youtu.be/".data ++ t) = some t := by
  unfold hostRest
  have h1 : "youtube.com/".data.isPrefixOf ("youtu.be/".data ++ t) = false := rfl
  rw [if_neg (by simp [h1]), if_pos (isPrefixOf_ex.mpr ⟨t, rfl⟩)]
  have hd : ("youtu.be/".data ++ t).drop 9 = t := by
    simpa using List.drop_left "youtu.be/".data t
  rw [hd]

end Utils

/-- C7 amended: isValidYouTubeUrl accepts exactly the strings made of an
optional http or https scheme, an optional www. prefix, one of the two
hosts youtube.com or youtu.be followed by a slash, and at least one
further character that is not a line terminator; the path after the host
is otherwise arbitrary, so acceptance is not limited to the four id
bearing shapes. -/
theorem isValidYouTubeUrl_host_characterization (url : String) :
    Utils.isValidYouTubeUrl url = true ↔ Utils.validUrlSpec url.data := by
  constructor
  · intro h
    unfold Utils.isValidYouTubeUrl at h
    cases hr : Utils.hostRest (Utils.stripWww (Utils.stripScheme url.data)) with
    | none =>
      rw [hr] at h
      simp at h
    | some rest =>
      rw [hr] at h
      cases rest with
      | nil => simp at h
      | cons c r =>
        have hlt : Utils.lineTerminator c = false := by simpa using h
        obtain ⟨hst, hhst, hseq⟩ := Utils.hostRest_decomp _ _ hr
        obtain ⟨w, hw, hweq⟩ := Utils.stripWww_decomp (Utils.stripScheme url.data)
        obtain ⟨sch, hsch, hscheq⟩ := Utils.stripScheme_decomp url.data
        refine ⟨sch, w, hst, c, r, hsch, hw, hhst, hlt, ?_⟩
        rw [hscheq, hweq, hseq]
        simp [List.append_assoc]
  · rintro ⟨sch, w, hst, c, rest, hsch, hw, hhst, hlt, heq⟩
    unfold Utils.isValidYouTubeUrl
    rw [heq]
    have hs1 : Utils.stripScheme (sch ++ w ++ hst ++ c :: rest) = w ++ hst ++ c :: rest := by
      rcases hsch with rfl | rfl | rfl
      · simp only [List.nil_append]
        rcases hw with rfl | rfl
        · simp only [List.nil_append]
          rcases hhst with rfl | rfl
          · exact Utils.stripScheme_not_h 'y' _ (by decide)
          · exact Utils.stripScheme_not_h 'y' _ (by decide)
        · exact Utils.stripScheme_not_h 'w' _ (by decide)
      · exact Utils.stripScheme_http (w ++ hst ++ c :: rest)
      · exact Utils.stripScheme_https (w ++ hst ++ c :: rest)
    rw [hs1]
    have hs2 : Utils.stripWww (w ++ hst ++ c :: rest) = hst ++ c :: rest := by
      rcases hw with rfl | rfl
      · simp only [List.nil_append]
        rcases hhst with rfl | rfl
        · exact Utils.stripWww_not_w 'y' _ (by decide)
        · exact Utils.stripWww_not_w 'y' _ (by decide)
      · exact Utils.stripWww_www (hst ++ c :: rest)
    rw [hs2]
    have hs3 : Utils.hostRest (hst ++ c :: rest) = some (c :: rest) := by
      rcases hhst with rfl | rfl
      · exact Utils.hostRest_youtube (c :: rest)
      · exact Utils.hostRest_youtube_short (c :: rest)
    rw [hs3]
    simp [hlt]

/-- C7 counterexample: a host with an arbitrary path is accepted by the
validator although it matches none of the four id bearing shapes and
yields no video id, so acceptance is not equivalent to matching one of
the four shapes. -/
theorem isValidYouTubeUrl_not_shape_bound :
    Utils.isValidYouTubeUrl "https://youtube.com/about" = true ∧
    Utils.firstCapture Utils.shortMarker "https://youtube.com/about".data = none ∧
    Utils.firstCapture Utils.watchMarker "https://youtube.com/about".data = none ∧
    Utils.firstCapture Utils.vMarker "https://youtube.com/about".data = none ∧
    Utils.firstCapture Utils.embedMarker "https://youtube.com/about".data = none ∧
    Utils.getVideoId "https://youtube.com/about" = none := by
  decide
